import Mathlib

/-!
# UpLifty — shallow embedding and verification

A shallow embedding of the UpLifty file-upload library (TypeScript) and
proofs about the claims of its specification.

The embedding follows the repository's sources:
* `src/lib/utils.ts` — `sanitizeFileName`, `getDestinationFolder`,
  `getFileExtension`, `guessMimeType`;
* `src/providers/s3.ts` (the current pipeline) — `S3StorageProvider`:
  constructor default-merging, `upload`, `getFilePath`, `constructS3Url`,
  the progress-event translation;
* `src/lib/s3Provider.ts` (legacy pipeline) — the `fileId` resolution that
  accepts a caller-supplied id;
* `src/core/uplifty.ts` — the `Uplifty` facade: construction, `getConfig`,
  the multi-file upload join.

JavaScript truthiness on strings (`""` is falsy) is modelled by `jsOr` /
`jsOrOpt`; `undefined` becomes `Option`; thrown values become an explicit
error type; the asynchronous transfer is modelled by its observable
behaviour (the sequence of byte-progress reports it fires, then its
outcome).
-/

namespace UpLifty

/-- JavaScript `a || b` on strings: `""` is falsy. -/
def jsOr (a b : String) : String :=
  if a = "" then b else a

/-- JavaScript `a || b` where `a : string | undefined`. -/
def jsOrOpt (a : Option String) (b : String) : String :=
  match a with
  | none => b
  | some s => if s = "" then b else s

/-! ## Types (`src/types/index.ts`) -/

/-- `StorageType` enum: only `s3` exists. -/
inductive StorageType where
  | s3
deriving DecidableEq, Repr

/-- `S3Config`: credentials, region, bucket. -/
structure S3Config where
  accessKeyId : String
  secretAccessKey : String
  region : String
  bucket : String
deriving DecidableEq, Repr

/-- `S3StorageConfig` / `UpliftyConfig`: the caller-supplied configuration;
optional knobs are `Option` (absent = `undefined`). -/
structure UpliftyConfig where
  type : StorageType
  maxConcurrentUploads : Option Nat := none
  defaultMimeType : Option String := none
  s3 : S3Config
deriving DecidableEq, Repr

/-- The provider's configuration after the constructor merges the defaults
`\x7b maxConcurrentUploads: 10, defaultMimeType: 'application/octet-stream', ...config \x7d`. -/
structure MergedS3Config where
  type : StorageType
  maxConcurrentUploads : Nat
  defaultMimeType : String
  s3 : S3Config
deriving DecidableEq, Repr

/-- The default-merging performed by the `S3StorageProvider` constructor. -/
def mergeDefaults (c : UpliftyConfig) : MergedS3Config :=
  { type := c.type
    maxConcurrentUploads := c.maxConcurrentUploads.getD 10
    defaultMimeType := c.defaultMimeType.getD "application/octet-stream"
    s3 := c.s3 }

/-- `UploadStatus` enum. -/
inductive UploadStatus where
  | QUEUED
  | UPLOADING
  | PROCESSING
  | COMPLETED
  | FAILED
  | CANCELLED
deriving DecidableEq, Repr

/-- `FolderPath` enum. -/
inductive FolderPath where
  | DEFAULT
  | IMAGES
  | DOCUMENTS
  | VIDEOS
deriving DecidableEq, Repr

/-- The string value each `FolderPath` member carries. -/
def FolderPath.value : FolderPath → String
  | .DEFAULT => "files/"
  | .IMAGES => "images/"
  | .DOCUMENTS => "documents/"
  | .VIDEOS => "videos/"

/-- A browser `File` as the library reads it: name, declared MIME type
(possibly `""`), size in bytes. -/
structure JsFile where
  name : String
  type : String
  size : Nat
deriving DecidableEq, Repr

/-- `ProgressEvent`. -/
structure ProgressEvent where
  fileId : String
  fileName : String
  progress : Nat
  status : UploadStatus
  error : Option String := none
  url : Option String := none
deriving DecidableEq, Repr

/-- `UploadResult`; the metadata record is an association list. -/
structure UploadResult where
  fileId : String
  fileName : String
  url : String
  size : Nat
  mimeType : String
  metadata : List (String × String)
deriving DecidableEq, Repr

/-- `UploadOptions` of the current pipeline: `onProgress` is modelled by
whether a callback was supplied. -/
structure UploadOpts where
  onProgress : Bool
  folder : Option String := none
  generateId : Bool := true
  metadata : List (String × String) := []
deriving DecidableEq, Repr

/-- A thrown JavaScript value: an `Error` carrying a message, or any
non-`Error` value. -/
inductive JsError where
  | jsError (msg : String)
  | other
deriving DecidableEq, Repr

/-- `error instanceof Error ? error.message : 'Upload failed'`. -/
def errMsg : JsError → String
  | .jsError m => m
  | .other => "Upload failed"

/-! ## Utilities (`src/lib/utils.ts`) -/

/-- JavaScript regex `\s` character class (ECMAScript WhiteSpace and
LineTerminator code points). -/
def isJsWhitespace (c : Char) : Bool :=
  let n := c.toNat
  n == 9 || n == 10 || n == 11 || n == 12 || n == 13 || n == 32 ||
  n == 0xa0 || n == 0x1680 || (decide (0x2000 ≤ n) && decide (n ≤ 0x200a)) ||
  n == 0x2028 || n == 0x2029 || n == 0x202f || n == 0x205f ||
  n == 0x3000 || n == 0xfeff

/-- Outside the printable-ASCII range `\x20`–`\x7E`: the class
`[^\x20-\x7E]`. -/
def isNonPrintableAscii (c : Char) : Bool :=
  c.toNat < 0x20 || c.toNat > 0x7e

/-- The denylist `[&/\\#,+()$~%'":*?<>\x7b\x7d]`, given by code points. -/
def denylistChars : List Char :=
  [38, 47, 92, 35, 44, 43, 40, 41, 36, 126, 37, 39, 34, 58, 42, 63,
   60, 62, 123, 125].map Char.ofNat

/-- Membership in the denylist class. -/
def isDenylisted (c : Char) : Bool :=
  denylistChars.contains c

/-- Replacement of one character by `_` when it falls in a class. -/
def replChar (p : Char → Bool) (c : Char) : Char :=
  if p c then Char.ofNat 95 else c

/-- `.replace(/class/g, '_')`: a character-class global replace is a
character map. -/
def jsReplaceClass (p : Char → Bool) (s : String) : String :=
  String.mk (s.data.map (replChar p))

/-- `sanitizeFileName` from `src/lib/utils.ts`: whitespace → `_`, then
non-printable-ASCII → `_`, then denylisted characters → `_`. -/
def sanitizeFileName (fileName : String) : String :=
  jsReplaceClass isDenylisted
    (jsReplaceClass isNonPrintableAscii
      (jsReplaceClass isJsWhitespace fileName))

/-- Prefix match where `.` in the pattern matches any character, as an
unescaped `.` does in the source's regexes. -/
def prefixMatchDot : List Char → List Char → Bool
  | [], _ => true
  | _ :: _, [] => false
  | p :: ps, c :: cs => (p == Char.ofNat 46 || p == c) && prefixMatchDot ps cs

/-- `/^pat/.test(s)` for a pattern of literals and `.` wildcards. -/
def testPrefixDot (pat s : String) : Bool :=
  prefixMatchDot pat.data s.data

/-- Alternatives of `/^image\/(jpeg|png|gif|webp|tiff)/`. -/
def imagePatterns : List String :=
  ["image/jpeg", "image/png", "image/gif", "image/webp", "image/tiff"]

/-- Alternatives of
`/^application\/(pdf|msword|vnd.openxmlformats-officedocument|vnd.ms-excel|vnd.ms-powerpoint)/`
(the `.` are unescaped wildcards in the source). -/
def documentPatterns : List String :=
  ["application/pdf", "application/msword",
   "application/vnd.openxmlformats-officedocument",
   "application/vnd.ms-excel", "application/vnd.ms-powerpoint"]

/-- `getDestinationFolder` from `src/lib/utils.ts`, branch for branch:
image regex first (it lists `gif`), then video prefix or exactly
`image/gif`, then document families or exactly `text/plain`, else
default. -/
def getDestinationFolder (mimeType : String) : FolderPath :=
  if imagePatterns.any (fun p => testPrefixDot p mimeType) then
    FolderPath.IMAGES
  else if testPrefixDot "video/" mimeType || mimeType == "image/gif" then
    FolderPath.VIDEOS
  else if documentPatterns.any (fun p => testPrefixDot p mimeType)
      || mimeType == "text/plain" then
    FolderPath.DOCUMENTS
  else
    FolderPath.DEFAULT

/-- ASCII lower-casing of one character (`toLowerCase` restricted to the
ASCII letters, the only ones the extension table contains). -/
def asciiToLower (c : Char) : Char :=
  if 65 ≤ c.toNat ∧ c.toNat ≤ 90 then Char.ofNat (c.toNat + 32) else c

/-- `fileName.split('.').pop()`: the segment after the last dot — the
whole name when there is no dot, empty when the name ends in a dot. -/
def lastDotSegment (cs : List Char) : List Char :=
  cs.foldl (fun acc c => if c == Char.ofNat 46 then [] else acc ++ [c]) []

/-- `getFileExtension`: `fileName.split('.').pop()?.toLowerCase() || ''`. -/
def getFileExtension (fileName : String) : String :=
  jsOr (String.mk ((lastDotSegment fileName.data).map asciiToLower)) ""

/-- The extension → MIME lookup table of `guessMimeType`. -/
def mimeTypes : List (String × String) :=
  [("jpg", "image/jpeg"), ("jpeg", "image/jpeg"), ("png", "image/png"),
   ("gif", "image/gif"), ("webp", "image/webp"), ("pdf", "application/pdf"),
   ("doc", "application/msword"),
   ("docx", "application/vnd.openxmlformats-officedocument.wordprocessingml.document"),
   ("xls", "application/vnd.ms-excel"),
   ("xlsx", "application/vnd.openxmlformats-officedocument.spreadsheetml.sheet"),
   ("ppt", "application/vnd.ms-powerpoint"),
   ("pptx", "application/vnd.openxmlformats-officedocument.presentationml.presentation"),
   ("mp4", "video/mp4"), ("mov", "video/quicktime"),
   ("avi", "video/x-msvideo"), ("txt", "text/plain"), ("csv", "text/csv")]

/-- `guessMimeType`: `mimeTypes[ext] || 'application/octet-stream'`. -/
def guessMimeType (fileName : String) : String :=
  jsOrOpt (mimeTypes.lookup (getFileExtension fileName))
    "application/octet-stream"

/-! ## S3 provider (`src/providers/s3.ts`) -/

/-- `fileId` resolution of the legacy provider (`src/lib/s3Provider.ts`,
line 50): `id || (generateId ? generateUniqueId() : file.name)`; the
generated id is a parameter of the model since `generateUniqueId` draws
on the clock and `Math.random`. -/
def resolveFileId (id : Option String) (generateId : Bool)
    (freshId fileName : String) : String :=
  jsOrOpt id (if generateId then freshId else fileName)

/-- Content-type resolution:
`file.type || guessMimeType(file.name) || this.config.defaultMimeType || 'application/octet-stream'`. -/
def resolveContentType (fileType fileName defaultMimeType : String) : String :=
  jsOr (jsOr (jsOr fileType (guessMimeType fileName)) defaultMimeType)
    "application/octet-stream"

/-- `constructS3Url`. -/
def constructS3Url (cfg : MergedS3Config) (filePath : String) : String :=
  "https://" ++ cfg.s3.bucket ++ ".s3." ++ cfg.s3.region ++
    ".amazonaws.com/" ++ filePath

/-- `s.endsWith(c)` for a one-character suffix. -/
def endsWithChar (s : String) (c : Char) : Bool :=
  match s.data.getLast? with
  | some x => x == c
  | none => false

/-- `getFilePath`: `if (folder)` is JavaScript truthiness, so an empty
string falls through to MIME classification. -/
def getFilePath (file : JsFile) (folder : Option String) : String :=
  match folder with
  | some f =>
    if f = "" then
      (getDestinationFolder (jsOr file.type (guessMimeType file.name))).value
        ++ sanitizeFileName file.name
    else
      (if endsWithChar f (Char.ofNat 47) then f else f ++ "/") ++
        sanitizeFileName file.name
  | none =>
    (getDestinationFolder (jsOr file.type (guessMimeType file.name))).value
      ++ sanitizeFileName file.name

/-- One `httpUploadProgress` report from the transfer: `loaded` and
`total` may each be `undefined`. -/
structure ProgressReport where
  loaded : Option Nat
  total : Option Nat
deriving DecidableEq, Repr

/-- The observable behaviour of one backend transfer: the byte-progress
reports it fires, then its settlement. -/
inductive TransferOutcome where
  | success (location : Option String)
  | failure (e : JsError)
deriving DecidableEq, Repr

/-- A fixed backend behaviour for one transfer. -/
structure BackendBehavior where
  reports : List ProgressReport
  outcome : TransferOutcome
deriving DecidableEq, Repr

/-- `Math.round((loaded / total) * 100)` over exact rationals, for
`total ≠ 0`: round half up, as `(200 l + t) / (2 t)` in `Nat` division. -/
def jsRoundPct (l t : Nat) : Nat :=
  (200 * l + t) / (2 * t)

/-- The `httpUploadProgress` handler of the current provider:
`if (progress.loaded && progress.total)` — truthiness, so an absent or
zero value suppresses the event — then an `UPLOADING` event at the
rounded percentage. -/
def translateReport (fileId fileName : String) (r : ProgressReport) :
    Option ProgressEvent :=
  match r.loaded, r.total with
  | some l, some t =>
    if l != 0 && t != 0 then
      some { fileId := fileId, fileName := fileName,
             progress := jsRoundPct l t, status := UploadStatus.UPLOADING }
    else none
  | _, _ => none

/-- JavaScript object spread `\x7b ...base, ...overlay \x7d`: base keys keep
their position but take the overlay's value; overlay-only keys follow. -/
def jsMergeRecords (base overlay : List (String × String)) :
    List (String × String) :=
  base.map (fun kv => (kv.1, (overlay.lookup kv.1).getD kv.2)) ++
    overlay.filter (fun kv => (base.lookup kv.1).isNone)

/-- The enriched `Metadata` bag the provider sends with the transfer,
caller entries overlaid last. -/
def buildMetadataBag (contentType fileId filePath : String) (size : Nat)
    (fileName : String) (metadata : List (String × String)) :
    List (String × String) :=
  jsMergeRecords
    [("content-type", contentType), ("file-id", fileId),
     ("storage-path", filePath), ("file-type", contentType),
     ("size", toString size), ("name", sanitizeFileName fileName)]
    metadata

/-- Everything observable about one `upload` call: the metadata bag sent
to the backend, the emitted progress events in order, and the call's
outcome. -/
structure UploadRun where
  sentMetadata : List (String × String)
  events : List ProgressEvent
  outcome : Except JsError UploadResult

/-- `S3StorageProvider.upload` of the current pipeline
(`src/providers/s3.ts`): resolve id, path and content type; emit
`UPLOADING` at 0 when a callback is supplied; translate each byte-progress
report; on settlement emit the terminal event and resolve or re-throw. -/
def upload (cfg : MergedS3Config) (file : JsFile) (opts : UploadOpts)
    (backend : BackendBehavior) (freshId : String) : UploadRun :=
  let fileId := if opts.generateId then freshId else file.name
  let filePath := getFilePath file opts.folder
  let contentType := resolveContentType file.type file.name cfg.defaultMimeType
  let sentMetadata :=
    buildMetadataBag contentType fileId filePath file.size file.name
      opts.metadata
  let initialEvents : List ProgressEvent :=
    if opts.onProgress then
      [{ fileId := fileId, fileName := file.name, progress := 0,
         status := UploadStatus.UPLOADING }]
    else []
  let progressEvents : List ProgressEvent :=
    if opts.onProgress then
      backend.reports.filterMap (translateReport fileId file.name)
    else []
  match backend.outcome with
  | .success location =>
    let url := jsOrOpt location (constructS3Url cfg filePath)
    { sentMetadata := sentMetadata
      events := initialEvents ++ progressEvents ++
        (if opts.onProgress then
          [{ fileId := fileId, fileName := file.name, progress := 100,
             status := UploadStatus.COMPLETED, url := some url }]
         else [])
      outcome := Except.ok
        { fileId := fileId, fileName := file.name, url := url,
          size := file.size, mimeType := contentType,
          metadata := opts.metadata } }
  | .failure e =>
    { sentMetadata := sentMetadata
      events := initialEvents ++ progressEvents ++
        (if opts.onProgress then
          [{ fileId := fileId, fileName := file.name, progress := 0,
             status := UploadStatus.FAILED, error := some (errMsg e) }]
         else [])
      outcome := Except.error e }

/-! ## Facade (`src/core/uplifty.ts`) -/

/-- The facade's state: the configuration it stores verbatim, and the
provider's merged configuration. -/
structure Uplifty where
  config : UpliftyConfig
  providerConfig : MergedS3Config
deriving DecidableEq, Repr

/-- The `Uplifty` constructor: stores the given configuration and
dispatches on its type tag (only `s3` exists) to build the provider,
which merges the defaults into its own copy. -/
def upliftyNew (c : UpliftyConfig) : Uplifty :=
  match c.type with
  | .s3 => { config := c, providerConfig := mergeDefaults c }

/-- `getConfig()`: returns the stored configuration. -/
def Uplifty.getConfig (u : Uplifty) : UpliftyConfig :=
  u.config

/-- `Promise.all` over settled outcomes: rejects when any constituent
rejected (the first in list order stands for the fail-fast join), else
resolves with all values. -/
def promiseAll {E A : Type} : List (Except E A) → Except E (List A)
  | [] => Except.ok []
  | Except.error e :: _ => Except.error e
  | Except.ok a :: xs => (promiseAll xs).map (fun rs => a :: rs)

/-- `Uplifty.upload(files, options)` / `uploadMultiple`: empty input short
circuits to `[]`; otherwise each file is mapped to a provider upload and
the results joined with `Promise.all`. The environment `env` fixes each
file's backend behaviour and generated id. -/
def upliftyUploadAll (u : Uplifty) (files : List JsFile) (opts : UploadOpts)
    (env : JsFile → BackendBehavior × String) :
    Except JsError (List UploadResult) :=
  if files.isEmpty then Except.ok []
  else
    promiseAll (files.map (fun f =>
      (upload u.providerConfig f opts (env f).1 (env f).2).outcome))

/-! ## Spec-side definitions for refinement comparison -/

/-- The spec's words for claim C3: the input configuration "with the
defaults (maxConcurrentUploads=10, defaultMimeType='application/octet-stream')
merged in for omitted optional fields" — to be compared with what
`getConfig` returns. -/
def specMergedConfig (c : UpliftyConfig) : UpliftyConfig :=
  { c with
    maxConcurrentUploads := some (c.maxConcurrentUploads.getD 10)
    defaultMimeType := some (c.defaultMimeType.getD "application/octet-stream") }

/-! ## Helper lemmas -/

theorem jsOr_of_ne (a b : String) (h : a ≠ "") : jsOr a b = a := by
  simp [jsOr, h]

theorem jsOr_empty (b : String) : jsOr "" b = b := by
  simp [jsOr]

theorem jsOrOpt_ne_empty (o : Option String) (b : String) (hb : b ≠ "") :
    jsOrOpt o b ≠ "" := by
  cases o with
  | none => simpa [jsOrOpt] using hb
  | some s =>
    by_cases hs : s = "" <;> simp [jsOrOpt, hs, hb]

theorem guessMimeType_ne_empty (fileName : String) :
    guessMimeType fileName ≠ "" :=
  jsOrOpt_ne_empty _ _ (by decide)

theorem replChar_cases (p : Char → Bool) (a : Char) :
    replChar p a = Char.ofNat 95 ∨ (replChar p a = a ∧ p a = false) := by
  by_cases h : p a = true
  · exact Or.inl (by simp [replChar, h])
  · exact Or.inr ⟨by simp [replChar, h], by simpa using h⟩

theorem printable_of_not_nonPrintable (c : Char)
    (h : isNonPrintableAscii c = false) :
    0x20 ≤ c.toNat ∧ c.toNat ≤ 0x7e := by
  simp [isNonPrintableAscii] at h
  omega

/-- Character-level invariant of the sanitization pipeline: after the
three replacement stages a character is not whitespace, is printable
ASCII, and is not denylisted. -/
theorem sanitized_char_props (a : Char) :
    isJsWhitespace
        (replChar isDenylisted
          (replChar isNonPrintableAscii (replChar isJsWhitespace a))) = false ∧
      0x20 ≤ (replChar isDenylisted
          (replChar isNonPrintableAscii (replChar isJsWhitespace a))).toNat ∧
      (replChar isDenylisted
          (replChar isNonPrintableAscii (replChar isJsWhitespace a))).toNat ≤ 0x7e ∧
      isDenylisted
        (replChar isDenylisted
          (replChar isNonPrintableAscii (replChar isJsWhitespace a))) = false := by
  have hws1 : isJsWhitespace (replChar isJsWhitespace a) = false := by
    rcases replChar_cases isJsWhitespace a with h | ⟨h, hp⟩
    · rw [h]; decide
    · rw [h]; exact hp
  have h2 : isJsWhitespace
        (replChar isNonPrintableAscii (replChar isJsWhitespace a)) = false ∧
      0x20 ≤ (replChar isNonPrintableAscii (replChar isJsWhitespace a)).toNat ∧
      (replChar isNonPrintableAscii (replChar isJsWhitespace a)).toNat ≤ 0x7e := by
    rcases replChar_cases isNonPrintableAscii (replChar isJsWhitespace a)
      with h | ⟨h, hp⟩
    · rw [h]; refine ⟨by decide, by decide, by decide⟩
    · rw [h]
      exact ⟨hws1, printable_of_not_nonPrintable _ hp⟩
  rcases replChar_cases isDenylisted
    (replChar isNonPrintableAscii (replChar isJsWhitespace a)) with h | ⟨h, hp⟩
  · rw [h]; exact ⟨by decide, by decide, by decide, by decide⟩
  · rw [h]; exact ⟨h2.1, h2.2.1, h2.2.2, hp⟩

theorem translateReport_eq_some {fid fn : String} {r : ProgressReport}
    {ev : ProgressEvent} (h : translateReport fid fn r = some ev) :
    ∃ l t, r.loaded = some l ∧ r.total = some t ∧ l ≠ 0 ∧ t ≠ 0 ∧
      ev = { fileId := fid, fileName := fn, progress := jsRoundPct l t,
             status := UploadStatus.UPLOADING } := by
  rcases r with ⟨l, t⟩
  cases l with
  | none => simp [translateReport] at h
  | some l =>
    cases t with
    | none => simp [translateReport] at h
    | some t =>
      simp only [translateReport] at h
      split at h
      · rename_i hcond
        cases h
        simp only [Bool.and_eq_true, bne_iff_ne, ne_eq] at hcond
        exact ⟨l, t, rfl, rfl, hcond.1, hcond.2, rfl⟩
      · cases h

theorem translateReport_status {fid fn : String} {r : ProgressReport}
    {ev : ProgressEvent} (h : translateReport fid fn r = some ev) :
    ev.status = UploadStatus.UPLOADING := by
  obtain ⟨l, t, _, _, _, _, rfl⟩ := translateReport_eq_some h
  rfl

theorem promiseAll_length {E A : Type} (l : List (Except E A)) (rs : List A)
    (h : promiseAll l = Except.ok rs) : rs.length = l.length := by
  induction l generalizing rs with
  | nil =>
    simp only [promiseAll] at h
    cases h
    rfl
  | cons x xs ih =>
    cases x with
    | error e => simp [promiseAll] at h
    | ok a =>
      simp only [promiseAll] at h
      cases hrec : promiseAll xs with
      | error e => rw [hrec] at h; simp [Except.map] at h
      | ok ys =>
        rw [hrec] at h
        simp only [Except.map] at h
        cases h
        simp [ih ys hrec]

theorem promiseAll_error_of_mem {E A : Type} (l : List (Except E A))
    (x : Except E A) (e : E) (hx : x ∈ l) (he : x = Except.error e) :
    ∃ e2, promiseAll l = Except.error e2 := by
  induction l with
  | nil => exact absurd hx (List.not_mem_nil x)
  | cons y ys ih =>
    rcases List.mem_cons.mp hx with rfl | hmem
    · rw [he]; exact ⟨e, rfl⟩
    · cases y with
      | error e0 => exact ⟨e0, rfl⟩
      | ok a =>
        obtain ⟨e2, h2⟩ := ih hmem
        refine ⟨e2, ?_⟩
        simp [promiseAll, h2, Except.map]

theorem promiseAll_ok_of_all {E A : Type} (l : List (Except E A))
    (h : ∀ x ∈ l, ∃ a, x = Except.ok a) :
    ∃ rs, promiseAll l = Except.ok rs := by
  induction l with
  | nil => exact ⟨[], rfl⟩
  | cons y ys ih =>
    obtain ⟨a, rfl⟩ := h y (List.mem_cons_self y ys)
    obtain ⟨rs, hrs⟩ := ih (fun x hx => h x (List.mem_cons_of_mem _ hx))
    exact ⟨a :: rs, by simp [promiseAll, hrs, Except.map]⟩

/-! ## Claims -/

/-- C1: how `getDestinationFolder` actually classifies the spec's five
examples. The first branch's regex `/^image\/(jpeg|png|gif|webp|tiff)/`
lists `gif`, so `image/gif` lands in the images folder; the explicit
`mimeType === 'image/gif'` disjunct of the video branch is unreachable,
contradicting the claim's (and the code's own) deliberate gif → videos
routing. The other four examples classify as the claim says. -/
theorem getDestinationFolder_actual_classification :
    getDestinationFolder "image/gif" = FolderPath.IMAGES ∧
    getDestinationFolder "image/png" = FolderPath.IMAGES ∧
    getDestinationFolder "video/mp4" = FolderPath.VIDEOS ∧
    getDestinationFolder "application/pdf" = FolderPath.DOCUMENTS ∧
    getDestinationFolder "application/x-custom" = FolderPath.DEFAULT := by
  decide

/-- C2 counterexample: a caller-supplied id is present but empty, yet the
resolved fileId is the generated id, not the caller's — JavaScript `||`
treats the empty string as absent, so the claim as stated fails. -/
theorem resolveFileId_empty_id_ignored :
    resolveFileId (some "") true "k9xgen" "a.txt" ≠ "" := by
  decide

/-- C2 (amended): the resolved fileId is the caller-supplied id when a
non-empty one is present; otherwise (no id, or an empty one) it is the
generated id when generation is requested, else the raw file name. -/
theorem resolveFileId_spec (s : String) (g : Bool) (freshId fileName : String) :
    (s ≠ "" → resolveFileId (some s) g freshId fileName = s) ∧
    resolveFileId none g freshId fileName =
      (if g then freshId else fileName) ∧
    resolveFileId (some "") g freshId fileName =
      (if g then freshId else fileName) := by
  refine ⟨fun hs => ?_, rfl, by simp [resolveFileId, jsOrOpt]⟩
  simp [resolveFileId, jsOrOpt, hs]

/-- C2 witness: a concrete non-empty caller-supplied id is returned
unchanged. -/
theorem resolveFileId_spec_witness :
    resolveFileId (some "user-1") true "k9xgen" "a.txt" = "user-1" :=
  (resolveFileId_spec "user-1" true "k9xgen" "a.txt").1 (by decide)

/-- C3 counterexample: for an input configuration omitting both optional
knobs, `getConfig()` does not return the defaults-merged configuration the
claim describes — the facade stores and returns the input verbatim, and
the defaults live only in the provider's own copy. -/
theorem getConfig_not_defaults_merged :
    Uplifty.getConfig
        (upliftyNew
          { type := StorageType.s3,
            s3 := { accessKeyId := "AKIA", secretAccessKey := "SECRET",
                    region := "us-east-1", bucket := "bkt" } }) ≠
      specMergedConfig
        { type := StorageType.s3,
          s3 := { accessKeyId := "AKIA", secretAccessKey := "SECRET",
                  region := "us-east-1", bucket := "bkt" } } := by
  decide

/-- C3 (amended): for every S3-shaped configuration, facade construction
succeeds and `getConfig()` returns the input configuration verbatim (no
defaults merged); the defaults `maxConcurrentUploads = 10` and
`defaultMimeType = 'application/octet-stream'` are merged only into the
provider's internal configuration. -/
theorem getConfig_verbatim (c : UpliftyConfig) :
    Uplifty.getConfig (upliftyNew c) = c ∧
    (upliftyNew c).providerConfig = mergeDefaults c := by
  rcases c with ⟨t, m, d, s3⟩
  cases t
  exact ⟨rfl, rfl⟩

/-- C9: the content type resolved by `upload` is the file's declared type
when non-empty and otherwise `guessMimeType` of the name; `guessMimeType`
never returns the empty string, so the configured `defaultMimeType` and
the final hardcoded fallback are unreachable and the resolved content
type does not depend on `defaultMimeType`. -/
theorem resolveContentType_spec (fileType fileName dflt : String) :
    resolveContentType fileType fileName dflt =
      (if fileType = "" then guessMimeType fileName else fileType) ∧
    guessMimeType fileName ≠ "" ∧
    (∀ d2, resolveContentType fileType fileName dflt =
      resolveContentType fileType fileName d2) := by
  have hg := guessMimeType_ne_empty fileName
  by_cases ht : fileType = ""
  · subst ht
    refine ⟨?_, hg, fun d2 => ?_⟩ <;>
      simp [resolveContentType, jsOr_empty, jsOr_of_ne _ _ hg]
  · refine ⟨?_, hg, fun d2 => ?_⟩ <;>
      simp [resolveContentType, jsOr_of_ne _ _ ht, ht]

/-- C6: a byte-progress report is translated into an emitted `UPLOADING`
event only when both the transferred and the total byte counts are known
and non-zero (the guard `if (progress.loaded && progress.total)`), and the
event then carries `progress = round(loaded / total * 100)`. -/
theorem translateReport_guarded (fid fn : String) (r : ProgressReport)
    (ev : ProgressEvent) (h : translateReport fid fn r = some ev) :
    ∃ l t, r.loaded = some l ∧ r.total = some t ∧ l ≠ 0 ∧ t ≠ 0 ∧
      ev = { fileId := fid, fileName := fn, progress := jsRoundPct l t,
             status := UploadStatus.UPLOADING } :=
  translateReport_eq_some h

/-- C6 witness: the report `50 / 200` is translated into an `UPLOADING`
event at 25%. -/
theorem translateReport_guarded_witness :
    ∃ l t, (⟨some 50, some 200⟩ : ProgressReport).loaded = some l ∧
      (⟨some 50, some 200⟩ : ProgressReport).total = some t ∧
      l ≠ 0 ∧ t ≠ 0 ∧
      (⟨"f1", "a.png", 25, UploadStatus.UPLOADING, none, none⟩ :
          ProgressEvent) =
        { fileId := "f1", fileName := "a.png", progress := jsRoundPct l t,
          status := UploadStatus.UPLOADING } :=
  translateReport_guarded "f1" "a.png" ⟨some 50, some 200⟩
    ⟨"f1", "a.png", 25, UploadStatus.UPLOADING, none, none⟩ (by decide)

/-- C7: every character of a sanitized filename is not whitespace (the
JavaScript `\s` class), lies in the printable-ASCII range `0x20`–`0x7E`,
and is none of the denylisted characters. -/
theorem sanitizeFileName_safe (s : String) :
    ∀ c ∈ (sanitizeFileName s).data,
      isJsWhitespace c = false ∧
      0x20 ≤ c.toNat ∧ c.toNat ≤ 0x7e ∧
      isDenylisted c = false := by
  intro c hc
  have hc2 : c ∈ (((s.data.map (replChar isJsWhitespace)).map
      (replChar isNonPrintableAscii)).map (replChar isDenylisted)) := hc
  rw [List.map_map, List.map_map] at hc2
  obtain ⟨a, _, rfl⟩ := List.mem_map.mp hc2
  simpa [Function.comp] using sanitized_char_props a

/-- C7 witness: the sanitized form of `"a b"` is `"a_b"`, and its first
character satisfies the safety predicate. -/
theorem sanitizeFileName_safe_witness :
    Char.ofNat 97 ∈ (sanitizeFileName "a b").data ∧
      (isJsWhitespace (Char.ofNat 97) = false ∧
        0x20 ≤ (Char.ofNat 97).toNat ∧ (Char.ofNat 97).toNat ≤ 0x7e ∧
        isDenylisted (Char.ofNat 97) = false) :=
  ⟨by decide, sanitizeFileName_safe "a b" (Char.ofNat 97) (by decide)⟩

/-- C8: when an upload resolves, the returned result's metadata is exactly
the caller-supplied metadata; the enriched bag built by `buildMetadataBag`
and sent to the backend is not leaked into the result. -/
theorem upload_metadata_roundtrip (cfg : MergedS3Config) (file : JsFile)
    (opts : UploadOpts) (backend : BackendBehavior) (freshId : String)
    (r : UploadResult)
    (h : (upload cfg file opts backend freshId).outcome = Except.ok r) :
    r.metadata = opts.metadata := by
  rcases backend with ⟨reports, outcome⟩
  cases outcome with
  | success location =>
    simp only [upload] at h
    cases h
    rfl
  | failure e =>
    simp only [upload] at h
    cases h

/-- C8 witness: uploading with metadata `[("userId", "12345")]` returns a
result whose metadata is exactly `[("userId", "12345")]`. -/
theorem upload_metadata_roundtrip_witness :
    ({ fileId := "id9", fileName := "a.png", url := "http://x", size := 5,
       mimeType := "image/png",
       metadata := [("userId", "12345")] } : UploadResult).metadata =
      [("userId", "12345")] :=
  upload_metadata_roundtrip
    (mergeDefaults
      { type := StorageType.s3,
        s3 := { accessKeyId := "k", secretAccessKey := "s", region := "r",
                bucket := "b" } })
    ⟨"a.png", "image/png", 5⟩
    { onProgress := false, metadata := [("userId", "12345")] }
    ⟨[], TransferOutcome.success (some "http://x")⟩ "id9"
    { fileId := "id9", fileName := "a.png", url := "http://x", size := 5,
      mimeType := "image/png", metadata := [("userId", "12345")] }
    rfl

/-- C10: with the file, the options other than the callback, and the
backend behaviour fixed, the outcome of `upload` — the resolved result or
the raised error — is the same whether or not a progress callback is
supplied; the callback influences only the emitted events. -/
theorem upload_onProgress_noninterference (cfg : MergedS3Config)
    (file : JsFile) (folder : Option String) (genId : Bool)
    (md : List (String × String)) (backend : BackendBehavior)
    (freshId : String) :
    (upload cfg file
        { onProgress := true, folder := folder, generateId := genId,
          metadata := md } backend freshId).outcome =
      (upload cfg file
        { onProgress := false, folder := folder, generateId := genId,
          metadata := md } backend freshId).outcome := by
  rcases backend with ⟨reports, outcome⟩
  cases outcome <;> rfl

/-- C4 counterexample: when the backend rejects with an `Error` whose own
message is empty, the single `FAILED` event carries the empty string in
its error field — the claim's "non-empty" does not hold universally. -/
theorem upload_failed_event_empty_error :
    ((upload
        (mergeDefaults
          { type := StorageType.s3,
            s3 := { accessKeyId := "k", secretAccessKey := "s",
                    region := "r", bucket := "b" } })
        ⟨"a.txt", "text/plain", 3⟩ { onProgress := true }
        ⟨[], TransferOutcome.failure (JsError.jsError "")⟩ "id1").events.any
      (fun ev => decide (ev.status = UploadStatus.FAILED) &&
        decide (ev.error = some ""))) = true := by
  decide

/-- C4 (amended): for every upload whose backend transfer fails with
cause `e` (progress callback supplied), exactly one `FAILED` event is
emitted, its error field is the cause's message when the cause is an
`Error` and the fallback `"Upload failed"` otherwise — non-empty unless
the cause is an `Error` with an empty message — and the call rejects with
the original cause `e` itself. -/
theorem upload_failure_spec (cfg : MergedS3Config) (file : JsFile)
    (folder : Option String) (genId : Bool) (md : List (String × String))
    (reports : List ProgressReport) (freshId : String) (e : JsError) :
    ((upload cfg file
        { onProgress := true, folder := folder, generateId := genId,
          metadata := md }
        ⟨reports, TransferOutcome.failure e⟩ freshId).events.countP
      (fun ev => decide (ev.status = UploadStatus.FAILED))) = 1 ∧
    (∀ ev ∈ (upload cfg file
        { onProgress := true, folder := folder, generateId := genId,
          metadata := md }
        ⟨reports, TransferOutcome.failure e⟩ freshId).events,
      ev.status = UploadStatus.FAILED → ev.error = some (errMsg e)) ∧
    (upload cfg file
        { onProgress := true, folder := folder, generateId := genId,
          metadata := md }
        ⟨reports, TransferOutcome.failure e⟩ freshId).outcome =
      Except.error e ∧
    (e ≠ JsError.jsError "" → errMsg e ≠ "") := by
  have hrun : upload cfg file
      { onProgress := true, folder := folder, generateId := genId,
        metadata := md }
      ⟨reports, TransferOutcome.failure e⟩ freshId =
    { sentMetadata := buildMetadataBag
        (resolveContentType file.type file.name cfg.defaultMimeType)
        (if genId then freshId else file.name)
        (getFilePath file folder) file.size file.name md
      events :=
        [{ fileId := if genId then freshId else file.name,
           fileName := file.name, progress := 0,
           status := UploadStatus.UPLOADING }] ++
        List.filterMap
          (translateReport (if genId then freshId else file.name) file.name)
          reports ++
        [{ fileId := if genId then freshId else file.name,
           fileName := file.name, progress := 0,
           status := UploadStatus.FAILED, error := some (errMsg e) }]
      outcome := Except.error e } := rfl
  rw [hrun]
  have hfm : ∀ ev ∈ List.filterMap
      (translateReport (if genId then freshId else file.name) file.name)
      reports, ev.status = UploadStatus.UPLOADING := by
    intro ev hev
    obtain ⟨r, _, hr⟩ := List.mem_filterMap.mp hev
    exact translateReport_status hr
  refine ⟨?_, ?_, rfl, ?_⟩
  · rw [List.countP_append, List.countP_append]
    have hz : List.countP
        (fun ev => decide (ev.status = UploadStatus.FAILED))
        (List.filterMap
          (translateReport (if genId then freshId else file.name) file.name)
          reports) = 0 := by
      rw [List.countP_eq_zero]
      intro ev hev
      simp [hfm ev hev]
    rw [hz]
    simp [List.countP_cons]
  · intro ev hev hst
    rcases List.mem_append.mp hev with hev2 | hev2
    · rcases List.mem_append.mp hev2 with hev3 | hev3
      · rw [List.mem_singleton.mp hev3] at hst
        simp at hst
      · rw [hfm ev hev3] at hst
        exact absurd hst (by decide)
    · rw [List.mem_singleton.mp hev2]
  · cases e with
    | jsError m =>
      intro hne hm
      exact hne (by rw [show m = "" from hm])
    | other => exact fun _ => by decide

/-- C4 witness: a concrete failing transfer (cause `Error("boom")`) emits
exactly one `FAILED` event, rejects with the original cause, and the
message is non-empty. -/
theorem upload_failure_spec_witness :
    ((upload
        (mergeDefaults
          { type := StorageType.s3,
            s3 := { accessKeyId := "k", secretAccessKey := "s",
                    region := "r", bucket := "b" } })
        ⟨"a.txt", "text/plain", 3⟩ { onProgress := true }
        ⟨[⟨some 1, some 2⟩], TransferOutcome.failure (JsError.jsError "boom")⟩
        "id1").events.countP
      (fun ev => decide (ev.status = UploadStatus.FAILED))) = 1 ∧
    (upload
        (mergeDefaults
          { type := StorageType.s3,
            s3 := { accessKeyId := "k", secretAccessKey := "s",
                    region := "r", bucket := "b" } })
        ⟨"a.txt", "text/plain", 3⟩ { onProgress := true }
        ⟨[⟨some 1, some 2⟩], TransferOutcome.failure (JsError.jsError "boom")⟩
        "id1").outcome = Except.error (JsError.jsError "boom") ∧
    errMsg (JsError.jsError "boom") ≠ "" :=
  ⟨(upload_failure_spec
      (mergeDefaults
        { type := StorageType.s3,
          s3 := { accessKeyId := "k", secretAccessKey := "s",
                  region := "r", bucket := "b" } })
      ⟨"a.txt", "text/plain", 3⟩ none true [] [⟨some 1, some 2⟩] "id1"
      (JsError.jsError "boom")).1,
   (upload_failure_spec
      (mergeDefaults
        { type := StorageType.s3,
          s3 := { accessKeyId := "k", secretAccessKey := "s",
                  region := "r", bucket := "b" } })
      ⟨"a.txt", "text/plain", 3⟩ none true [] [⟨some 1, some 2⟩] "id1"
      (JsError.jsError "boom")).2.2.1,
   (upload_failure_spec
      (mergeDefaults
        { type := StorageType.s3,
          s3 := { accessKeyId := "k", secretAccessKey := "s",
                  region := "r", bucket := "b" } })
      ⟨"a.txt", "text/plain", 3⟩ none true [] [⟨some 1, some 2⟩] "id1"
      (JsError.jsError "boom")).2.2.2 (by decide)⟩

/-- C5: the multi-file upload is all-or-nothing — when any constituent
upload rejects, the aggregate rejects and no result list is surfaced;
when every constituent resolves, the aggregate resolves with one result
per input file. -/
theorem uploadAll_all_or_nothing (u : Uplifty) (files : List JsFile)
    (opts : UploadOpts) (env : JsFile → BackendBehavior × String) :
    ((∃ f ∈ files, ∃ e,
        (upload u.providerConfig f opts (env f).1 (env f).2).outcome =
          Except.error e) →
      ∃ e, upliftyUploadAll u files opts env = Except.error e) ∧
    ((∀ f ∈ files, ∃ r,
        (upload u.providerConfig f opts (env f).1 (env f).2).outcome =
          Except.ok r) →
      ∃ rs, upliftyUploadAll u files opts env = Except.ok rs ∧
        rs.length = files.length) := by
  constructor
  · rintro ⟨f, hf, e, he⟩
    have hne : files.isEmpty = false := by
      cases files with
      | nil => exact absurd hf (List.not_mem_nil f)
      | cons a l => rfl
    simp only [upliftyUploadAll, hne, Bool.false_eq_true, if_false]
    exact promiseAll_error_of_mem _ _ e
      (List.mem_map_of_mem
        (fun f2 => (upload u.providerConfig f2 opts (env f2).1 (env f2).2).outcome)
        hf) he
  · intro h
    cases files with
    | nil => exact ⟨[], rfl, rfl⟩
    | cons a l =>
      obtain ⟨rs, hrs⟩ := promiseAll_ok_of_all
        ((a :: l).map
          (fun f => (upload u.providerConfig f opts (env f).1 (env f).2).outcome))
        (by
          intro x hx
          obtain ⟨f, hf, rfl⟩ := List.mem_map.mp hx
          exact h f hf)
      refine ⟨rs, by simpa [upliftyUploadAll] using hrs, ?_⟩
      rw [promiseAll_length _ _ hrs, List.length_map]

/-- C5 witness: two files where the second one's transfer fails — the
aggregate call rejects. -/
theorem uploadAll_all_or_nothing_witness :
    ∃ e, upliftyUploadAll
        (upliftyNew
          { type := StorageType.s3,
            s3 := { accessKeyId := "k", secretAccessKey := "s",
                    region := "r", bucket := "b" } })
        [⟨"a.txt", "text/plain", 1⟩, ⟨"b.txt", "text/plain", 2⟩]
        { onProgress := false }
        (fun f =>
          if f.name = "b.txt" then
            (⟨[], TransferOutcome.failure JsError.other⟩, "g2")
          else (⟨[], TransferOutcome.success none⟩, "g1")) =
      Except.error e :=
  (uploadAll_all_or_nothing
      (upliftyNew
        { type := StorageType.s3,
          s3 := { accessKeyId := "k", secretAccessKey := "s",
                  region := "r", bucket := "b" } })
      [⟨"a.txt", "text/plain", 1⟩, ⟨"b.txt", "text/plain", 2⟩]
      { onProgress := false }
      (fun f =>
        if f.name = "b.txt" then
          (⟨[], TransferOutcome.failure JsError.other⟩, "g2")
        else (⟨[], TransferOutcome.success none⟩, "g1"))).1
    ⟨⟨"b.txt", "text/plain", 2⟩, by decide, JsError.other, rfl⟩

end UpLifty
